import Mathlib

/-!
Shallow embedding of the StellarGuard smart contracts
(`src/smartcontract/contracts/{access-control,governance,treasury}/src/lib.rs`)
and verification of specification claims about them.

Modelling conventions.
* `Address` is modelled as `Nat` (the host address type is opaque, equatable
  and orderable; the contracts only compare and store addresses).
  `Address::zero()` is modelled as `0`.
* The host key/value stores are modelled as association lists with
  first-key-wins lookup (`stGet`) and replace-or-append update (`stSet`).
* Machine integers are modelled as `Nat` (u32/u64) and `Int` (i128).
  Rust `checked_add` is modelled by the `checkedAdd*` functions returning
  `Option`.  Native arithmetic that can overflow is modelled by `chk*`
  guards that trap on overflow (see `Halt`); the workspace build profile
  (not under `src/`) enables overflow checks, which the specification
  records as "all arithmetic must be checked; overflow is a terminal
  error".
* A Soroban entry point that returns `Err` (or traps) aborts the host
  transaction and every storage write of the invocation is rolled back.
  Each entry point is therefore given as a `*Body` function translated
  literally from the source (threading the possibly dirty state through
  early error returns) plus a wrapper that restores the pre-call state
  whenever the body does not succeed.
-/

namespace StellarGuard

/-- Outcome of an aborted invocation: either a contract error code returned
as `Err`, or a host trap (failed `require_auth`, arithmetic overflow panic). -/
inductive Halt (ε : Type) where
  | err (e : ε)
  | trap
deriving DecidableEq, Repr

/-- Result of an entry point: a value, or an abort. -/
abbrev Res (ε α : Type) := Except (Halt ε) α

instance {ε α : Type} [DecidableEq ε] [DecidableEq α] :
    DecidableEq (Except ε α) := fun a b =>
  match a, b with
  | .ok x, .ok y =>
    if h : x = y then .isTrue (by rw [h]) else .isFalse (by simp [h])
  | .ok _, .error _ => .isFalse (by simp)
  | .error _, .ok _ => .isFalse (by simp)
  | .error x, .error y =>
    if h : x = y then .isTrue (by rw [h]) else .isFalse (by simp [h])

-- ============================================================================
-- Host storage model: association lists with typed keys
-- ============================================================================

/-- Lookup in a key/value store (first matching key wins). -/
def stGet {κ α : Type} [DecidableEq κ] (l : List (κ × α)) (k : κ) : Option α :=
  match l with
  | [] => none
  | e :: t => if e.1 = k then some e.2 else stGet t k

/-- Update a key/value store: replace the first binding of the key, or append
a fresh binding at the end. -/
def stSet {κ α : Type} [DecidableEq κ] (l : List (κ × α)) (k : κ) (v : α) :
    List (κ × α) :=
  match l with
  | [] => [(k, v)]
  | e :: t => if e.1 = k then (k, v) :: t else e :: stSet t k v

/-- Key-presence test of a key/value store. -/
def stHas {κ α : Type} [DecidableEq κ] (l : List (κ × α)) (k : κ) : Bool :=
  (stGet l k).isSome

theorem stGet_stSet_self {κ α : Type} [DecidableEq κ]
    (l : List (κ × α)) (k : κ) (v : α) : stGet (stSet l k v) k = some v := by
  induction l with
  | nil => simp [stGet, stSet]
  | cons e t ih =>
    by_cases h : e.1 = k
    · simp [stGet, stSet, h]
    · simp [stGet, stSet, h, ih]

theorem stGet_stSet_ne {κ α : Type} [DecidableEq κ]
    (l : List (κ × α)) (k j : κ) (v : α) (hjk : j ≠ k) :
    stGet (stSet l k v) j = stGet l j := by
  induction l with
  | nil => simp [stGet, stSet, Ne.symm hjk]
  | cons e t ih =>
    by_cases h : e.1 = k
    · simp [stGet, stSet, h, Ne.symm hjk, hjk]
    · by_cases hj : e.1 = j
      · simp [stGet, stSet, h, hj, hjk]
      · simp [stGet, stSet, h, hj, hjk, ih]

theorem stSet_of_get_none {κ α : Type} [DecidableEq κ]
    (l : List (κ × α)) (k : κ) (v : α) (h : stGet l k = none) :
    stSet l k v = l ++ [(k, v)] := by
  induction l with
  | nil => simp [stSet]
  | cons e t ih =>
    by_cases he : e.1 = k
    · simp [stGet, he] at h
    · simp [stGet, he] at h
      simp [stSet, he, ih h]

theorem stHas_stSet {κ α : Type} [DecidableEq κ]
    (l : List (κ × α)) (k j : κ) (v : α) :
    stHas (stSet l k v) j = (j = k || stHas l j) := by
  by_cases h : j = k
  · simp [stHas, h, stGet_stSet_self]
  · simp [stHas, h, stGet_stSet_ne l k j v h]

-- ============================================================================
-- Machine-integer bounds
-- ============================================================================

def u32Lim : Nat := 2 ^ 32
def u64Lim : Nat := 2 ^ 64
def i128Lim : Int := 2 ^ 127

/-- Rust `u32::checked_add` / sequence bound checking, as used explicitly by
the source via `checked_add`. -/
def checkedAdd32 (a b : Nat) : Option Nat :=
  if a + b < u32Lim then some (a + b) else none

/-- Rust `u64::checked_add`, as used explicitly by the source. -/
def checkedAdd64 (a b : Nat) : Option Nat :=
  if a + b < u64Lim then some (a + b) else none

/-- Guard for native `u32` arithmetic. Modelled from the spec: the workspace
build profile (its manifest is not under `src/`) enables overflow checks, so
a native operation that overflows panics and the invocation traps; the spec
states "all arithmetic must be checked; overflow is a terminal error,
never a wrap". -/
def chk32 (n : Nat) : Option Nat :=
  if n < u32Lim then some n else none

/-- Guard for native `i128` arithmetic; see `chk32` for the modelling note. -/
def chkI128 (n : Int) : Option Int :=
  if -i128Lim ≤ n ∧ n < i128Lim then some n else none

/-- Range predicate for `i128` values. -/
def inI128 (n : Int) : Prop := -i128Lim ≤ n ∧ n < i128Lim

instance (n : Int) : Decidable (inI128 n) := by
  unfold inI128; infer_instance

/-- Transactional entry-point wrapper: a Soroban invocation that returns an
error or traps is rolled back by the host, so the observable state after a
failed call is the pre-call state. -/
def runTx {σ ε α : Type} (body : σ → Res ε α × σ) (s : σ) : Res ε α × σ :=
  match body s with
  | (.ok a, s2) => (.ok a, s2)
  | (.error h, _) => (.error h, s)

theorem runTx_error_eq {σ ε α : Type} (body : σ → Res ε α × σ) (s : σ)
    (e : Halt ε) (h : (runTx body s).1 = .error e) : (runTx body s).2 = s := by
  unfold runTx at h ⊢
  rcases hb : body s with ⟨r, s2⟩
  simp only [hb] at h ⊢
  cases r with
  | ok a => simp at h
  | error h2 => simp

-- ============================================================================
-- Access Control contract (`access-control/src/lib.rs`)
-- ============================================================================

namespace AC

/-- Error codes of the Access Control module. -/
inductive ACError where
  | NotInitialized
  | AlreadyInitialized
  | Unauthorized
  | RoleNotFound
  | RoleAlreadyAssigned
  | InvalidRole
  | CannotRemoveOwner
  | InsufficientPrivilege
deriving DecidableEq, Repr

/-- Role levels of the access-control hierarchy. -/
inductive Role where
  | Viewer
  | Member
  | Admin
  | Owner
deriving DecidableEq, Repr

/-- Numeric representation of a role (`Role as u32` in the source). -/
def Role.toU32 : Role → Nat
  | .Viewer => 1
  | .Member => 2
  | .Admin => 3
  | .Owner => 4

/-- Role assignment record. -/
structure RoleAssignment where
  address : Nat
  role : Role
  assigned_at : Nat
  assigned_by : Nat
deriving DecidableEq, Repr

/-- Storage of the Access Control contract.  `initialized` models presence of
`DataKey::Initialized`; `owner` models `DataKey::Owner`; `roles` models the
persistent `DataKey::Role(addr)` records; `allMembers` models
`DataKey::AllMembers`; `roleCounts` models `DataKey::RoleCount(u32)`. -/
structure ACState where
  initialized : Bool
  owner : Option Nat
  roles : List (Nat × RoleAssignment)
  allMembers : Option (List Nat)
  roleCounts : List (Nat × Nat)
deriving DecidableEq, Repr

/-- The empty (pre-deployment) storage. -/
def acInit : ACState :=
  { initialized := false, owner := none, roles := [], allMembers := none
    roleCounts := [] }

/-- Per-invocation host context: the set of addresses that authorized the
invocation (`require_auth` succeeds exactly for them) and the ledger
timestamp. -/
structure ACCtx where
  auths : List Nat
  timestamp : Nat

/-- Body of the `initialize(owner)` entry point. -/
def init_body (ctx : ACCtx) (owner : Nat) (s : ACState) :
    Res ACError Unit × ACState :=
  if s.initialized then (.error (.err .AlreadyInitialized), s)
  else if ¬ ctx.auths.contains owner then (.error .trap, s)
  else
    let asg : RoleAssignment :=
      { address := owner, role := .Owner, assigned_at := ctx.timestamp
        assigned_by := owner }
    (.ok (),
      { initialized := true
        owner := some owner
        roles := stSet s.roles owner asg
        allMembers := some [owner]
        roleCounts :=
          stSet (stSet (stSet (stSet s.roleCounts Role.Owner.toU32 1)
            Role.Admin.toU32 0) Role.Member.toU32 0) Role.Viewer.toU32 0 })

/-- The `initialize` entry point (transactional).  Named `init` because the
source name is a reserved word here. -/
def init (ctx : ACCtx) (owner : Nat) (s : ACState) :
    Res ACError Unit × ACState :=
  runTx (init_body ctx owner) s

/-- Body of `assign_role(assignor, target, role)`. -/
def assign_role_body (ctx : ACCtx) (assignor target : Nat) (role : Role)
    (s : ACState) : Res ACError Unit × ACState :=
  if ¬ s.initialized then (.error (.err .NotInitialized), s)
  else if ¬ ctx.auths.contains assignor then (.error .trap, s)
  else
    match stGet s.roles assignor with
    | none => (.error (.err .RoleNotFound), s)
    | some aAsg =>
      let assignorRole := aAsg.role
      let privileged : Bool :=
        match role with
        | .Owner | .Admin => assignorRole = Role.Owner
        | .Member | .Viewer =>
            assignorRole = Role.Owner || assignorRole = Role.Admin
      if ¬ privileged then (.error (.err .InsufficientPrivilege), s)
      else
        let roleVal := role.toU32
        let count := (stGet s.roleCounts roleVal).getD 0
        let s1 :=
          match stGet s.roles target with
          | some oldAsg =>
            let oldVal := oldAsg.role.toU32
            let oldCount := (stGet s.roleCounts oldVal).getD 1
            let oldCount2 := if oldCount > 0 then oldCount - 1 else oldCount
            { s with roleCounts := stSet s.roleCounts oldVal oldCount2 }
          | none =>
            let members := s.allMembers.getD []
            { s with allMembers := some (members ++ [target]) }
        let asg : RoleAssignment :=
          { address := target, role := role, assigned_at := ctx.timestamp
            assigned_by := assignor }
        let s2 := { s1 with roles := stSet s1.roles target asg }
        match chk32 (count + 1) with
        | none => (.error .trap, s2)
        | some c =>
          (.ok (), { s2 with roleCounts := stSet s2.roleCounts roleVal c })

/-- `assign_role` entry point (transactional). -/
def assign_role (ctx : ACCtx) (assignor target : Nat) (role : Role)
    (s : ACState) : Res ACError Unit × ACState :=
  runTx (assign_role_body ctx assignor target role) s

/-- Body of `revoke_role(revoker, target)`. -/
def revoke_role_body (ctx : ACCtx) (revoker target : Nat) (s : ACState) :
    Res ACError Unit × ACState :=
  if ¬ s.initialized then (.error (.err .NotInitialized), s)
  else if ¬ ctx.auths.contains revoker then (.error .trap, s)
  else
    match stGet s.roles revoker with
    | none => (.error (.err .RoleNotFound), s)
    | some rAsg =>
      let revokerRole := rAsg.role
      if ¬ (revokerRole = Role.Owner ∨ revokerRole = Role.Admin) then
        (.error (.err .InsufficientPrivilege), s)
      else
        match stGet s.roles target with
        | none => (.error (.err .RoleNotFound), s)
        | some tAsg =>
          if tAsg.role = Role.Owner then (.error (.err .CannotRemoveOwner), s)
          else if tAsg.role = Role.Admin ∧ revokerRole ≠ Role.Owner then
            (.error (.err .InsufficientPrivilege), s)
          else
            let roleVal := tAsg.role.toU32
            let count := (stGet s.roleCounts roleVal).getD 1
            let count2 := if count > 0 then count - 1 else count
            let members := s.allMembers.getD []
            (.ok (),
              { s with
                roleCounts := stSet s.roleCounts roleVal count2
                roles := s.roles.filter (fun e => e.1 ≠ target)
                allMembers := some (members.filter (fun m => m ≠ target)) })

/-- `revoke_role` entry point (transactional). -/
def revoke_role (ctx : ACCtx) (revoker target : Nat) (s : ACState) :
    Res ACError Unit × ACState :=
  runTx (revoke_role_body ctx revoker target) s

/-- Body of `transfer_ownership(current_owner, new_owner)`. -/
def transfer_ownership_body (ctx : ACCtx) (current_owner new_owner : Nat)
    (s : ACState) : Res ACError Unit × ACState :=
  if ¬ s.initialized then (.error (.err .NotInitialized), s)
  else if ¬ ctx.auths.contains current_owner then (.error .trap, s)
  else
    match s.owner with
    | none => (.error (.err .NotInitialized), s)
    | some stored =>
      if current_owner ≠ stored then (.error (.err .Unauthorized), s)
      else
        let newAsg : RoleAssignment :=
          { address := new_owner, role := .Owner, assigned_at := ctx.timestamp
            assigned_by := current_owner }
        let oldAsg : RoleAssignment :=
          { address := current_owner, role := .Admin
            assigned_at := ctx.timestamp, assigned_by := current_owner }
        let s1 :=
          { s with owner := some new_owner
                   roles := stSet (stSet s.roles new_owner newAsg)
                     current_owner oldAsg }
        let members := s1.allMembers.getD []
        let s2 :=
          if members.contains new_owner then s1
          else { s1 with allMembers := some (members ++ [new_owner]) }
        let adminCount := (stGet s2.roleCounts Role.Admin.toU32).getD 0
        match chk32 (adminCount + 1) with
        | none => (.error .trap, s2)
        | some c =>
          (.ok (),
            { s2 with roleCounts := stSet s2.roleCounts Role.Admin.toU32 c })

/-- `transfer_ownership` entry point (transactional). -/
def transfer_ownership (ctx : ACCtx) (current_owner new_owner : Nat)
    (s : ACState) : Res ACError Unit × ACState :=
  runTx (transfer_ownership_body ctx current_owner new_owner) s

end AC

-- ============================================================================
-- Claims about Access Control
-- ============================================================================

/-- C1.  The claim states that every sequence of Access Control operations
starting from `initialize(o)` preserves `RoleCount[Owner] == 1` (among other
invariants).  The code violates this: after `initialize(1)`, the owner may
call `assign_role(1, 2, Owner)`; the call succeeds and leaves
`RoleCount[Owner] = 2`, with two stored Owner assignments. -/
theorem c1_assign_owner_breaks_owner_count :
    (AC.assign_role { auths := [1, 2], timestamp := 0 } 1 2 AC.Role.Owner
        (AC.init { auths := [1, 2], timestamp := 0 } 1 AC.acInit).2).1
      = .ok () ∧
    stGet (AC.assign_role { auths := [1, 2], timestamp := 0 } 1 2
        AC.Role.Owner
        (AC.init { auths := [1, 2], timestamp := 0 } 1 AC.acInit).2).2.roleCounts
        AC.Role.Owner.toU32
      = some 2 := by
  decide

/-- C3.  The claim states that `assign_role(assignor, target, Owner)` is
always rejected with `InvalidRole`.  The code has no such guard: after
`initialize(1)`, the owner calls `assign_role(1, 2, Owner)` and the call
returns `Ok` rather than `Err(InvalidRole)`. -/
theorem c3_assign_owner_returns_ok :
    (AC.assign_role { auths := [1, 2], timestamp := 0 } 1 2 AC.Role.Owner
        (AC.init { auths := [1, 2], timestamp := 0 } 1 AC.acInit).2).1
      ≠ .error (.err AC.ACError.InvalidRole) ∧
    (AC.assign_role { auths := [1, 2], timestamp := 0 } 1 2 AC.Role.Owner
        (AC.init { auths := [1, 2], timestamp := 0 } 1 AC.acInit).2).1
      = .ok () := by
  decide

/-- C10.  A self-transfer of ownership by the reigning owner succeeds; after
it, the `Owner` storage slot still holds that address, the address's stored
`RoleAssignment` records role `Admin` (the demotion write overwrites the
`Owner` write to the same key), and `RoleCount[Admin]` is incremented — so
the address in the `Owner` slot no longer holds the `Owner` role. -/
theorem c10_self_transfer_demotes_owner (ctx : AC.ACCtx) (a : Nat)
    (s : AC.ACState)
    (hinit : s.initialized = true)
    (hown : s.owner = some a)
    (hauth : a ∈ ctx.auths)
    (hcnt : (stGet s.roleCounts AC.Role.Admin.toU32).getD 0 + 1 < u32Lim) :
    (AC.transfer_ownership ctx a a s).1 = .ok () ∧
    (AC.transfer_ownership ctx a a s).2.owner = some a ∧
    stGet (AC.transfer_ownership ctx a a s).2.roles a =
      some { address := a, role := AC.Role.Admin, assigned_at := ctx.timestamp
             assigned_by := a } ∧
    stGet (AC.transfer_ownership ctx a a s).2.roleCounts AC.Role.Admin.toU32 =
      some ((stGet s.roleCounts AC.Role.Admin.toU32).getD 0 + 1) ∧
    (stGet (AC.transfer_ownership ctx a a s).2.roles a).map
      AC.RoleAssignment.role ≠ some AC.Role.Owner := by
  unfold AC.transfer_ownership runTx AC.transfer_ownership_body
  by_cases hm : a ∈ s.allMembers.getD []
  · simp [hinit, hown, hauth, hm, chk32, hcnt, stGet_stSet_self]
  · simp [hinit, hown, hauth, hm, chk32, hcnt, stGet_stSet_self]

-- ============================================================================
-- Treasury contract (`treasury/src/lib.rs`)
-- ============================================================================

namespace TR

/-- Error codes of the Treasury module. -/
inductive TRError where
  | NotInitialized
  | AlreadyInitialized
  | Unauthorized
  | InvalidAmount
  | InsufficientFunds
  | InvalidThreshold
  | TransactionNotFound
  | AlreadyApproved
  | AlreadyExecuted
  | AlreadySigner
  | NotASigner
  | ThresholdBreach
deriving DecidableEq, Repr

/-- A pending transaction proposal in the multi-sig treasury; `to_addr` models the source field `to` (a reserved word here). -/
structure Transaction where
  id : Nat
  to_addr : Nat
  amount : Int
  memo : String
  approvals : List Nat
  executed : Bool
  created_at : Nat
  proposer : Nat
deriving DecidableEq, Repr

/-- Storage of the Treasury contract; each field models the storage slot of
the same name (`DataKey::…`), `Option` marking slots that may be absent. -/
structure TRState where
  initialized : Bool
  admin : Option Nat
  threshold : Option Nat
  signers : Option (List Nat)
  balance : Option Int
  txCounter : Option Nat
  transactions : List (Nat × Transaction)
deriving DecidableEq, Repr

/-- The empty (pre-deployment) storage. -/
def trEmpty : TRState :=
  { initialized := false, admin := none, threshold := none, signers := none
    balance := none, txCounter := none, transactions := [] }

/-- Per-invocation host context. -/
structure TRCtx where
  auths : List Nat
  timestamp : Nat

/-- Body of the `initialize(admin, threshold, signers)` entry point. -/
def init_body (ctx : TRCtx) (admin threshold : Nat) (signers : List Nat)
    (s : TRState) : Res TRError Unit × TRState :=
  if s.initialized then (.error (.err .AlreadyInitialized), s)
  else if threshold = 0 ∨ threshold > signers.length then
    (.error (.err .InvalidThreshold), s)
  else if ¬ admin ∈ ctx.auths then (.error .trap, s)
  else
    (.ok (),
      { initialized := true, admin := some admin, threshold := some threshold
        signers := some signers, balance := some 0, txCounter := some 0
        transactions := s.transactions })

/-- Treasury `initialize` entry point (transactional). -/
def init (ctx : TRCtx) (admin threshold : Nat) (signers : List Nat)
    (s : TRState) : Res TRError Unit × TRState :=
  runTx (init_body ctx admin threshold signers) s

/-- Body of `deposit(from, amount)`.  The balance update is native `i128`
addition; see `chkI128` for the overflow modelling note. -/
def deposit_body (ctx : TRCtx) (frm : Nat) (amount : Int) (s : TRState) :
    Res TRError Unit × TRState :=
  if ¬ s.initialized then (.error (.err .NotInitialized), s)
  else if amount ≤ 0 then (.error (.err .InvalidAmount), s)
  else if ¬ frm ∈ ctx.auths then (.error .trap, s)
  else
    let bal := s.balance.getD 0
    match chkI128 (bal + amount) with
    | none => (.error .trap, s)
    | some nb => (.ok (), { s with balance := some nb })

/-- `deposit` entry point (transactional). -/
def deposit (ctx : TRCtx) (frm : Nat) (amount : Int) (s : TRState) :
    Res TRError Unit × TRState :=
  runTx (deposit_body ctx frm amount) s

/-- Body of `execute(executor, tx_id)`. -/
def execute_body (ctx : TRCtx) (executor : Nat) (tx_id : Nat) (s : TRState) :
    Res TRError Unit × TRState :=
  if ¬ s.initialized then (.error (.err .NotInitialized), s)
  else if ¬ executor ∈ s.signers.getD [] then (.error (.err .NotASigner), s)
  else if ¬ executor ∈ ctx.auths then (.error .trap, s)
  else
    match stGet s.transactions tx_id with
    | none => (.error (.err .TransactionNotFound), s)
    | some t =>
      if t.executed then (.error (.err .AlreadyExecuted), s)
      else
        let threshold := s.threshold.getD 1
        if t.approvals.length < threshold then
          (.error (.err .Unauthorized), s)
        else
          let bal := s.balance.getD 0
          if bal < t.amount then (.error (.err .InsufficientFunds), s)
          else
            match chkI128 (bal - t.amount) with
            | none => (.error .trap, s)
            | some nb =>
              (.ok (),
                { s with balance := some nb
                         transactions :=
                           stSet s.transactions tx_id { t with executed := true } })

/-- `execute` entry point (transactional). -/
def execute (ctx : TRCtx) (executor : Nat) (tx_id : Nat) (s : TRState) :
    Res TRError Unit × TRState :=
  runTx (execute_body ctx executor tx_id) s

/-- Body of `remove_signer(admin, signer)`.  The source builds the new signer
list by keeping every element different from `signer` (so every occurrence
is dropped) and records whether any occurrence was found. -/
def remove_signer_body (ctx : TRCtx) (admin signer : Nat) (s : TRState) :
    Res TRError Unit × TRState :=
  if ¬ s.initialized then (.error (.err .NotInitialized), s)
  else
    match s.admin with
    | none => (.error (.err .NotInitialized), s)
    | some adm =>
      if admin ≠ adm then (.error (.err .Unauthorized), s)
      else if ¬ admin ∈ ctx.auths then (.error .trap, s)
      else
        let signers := s.signers.getD []
        let threshold := s.threshold.getD 1
        if signers.length ≤ threshold then
          (.error (.err .ThresholdBreach), s)
        else
          let newSigners := signers.filter (fun m => m ≠ signer)
          if ¬ signers.contains signer then (.error (.err .NotASigner), s)
          else (.ok (), { s with signers := some newSigners })

/-- `remove_signer` entry point (transactional). -/
def remove_signer (ctx : TRCtx) (admin signer : Nat) (s : TRState) :
    Res TRError Unit × TRState :=
  runTx (remove_signer_body ctx admin signer) s

end TR

-- ============================================================================
-- Claims about the Treasury
-- ============================================================================

/-- C2.  For an initialized treasury and an authorized executor,
`execute(executor, tx_id)` succeeds iff the executor is a signer, the
transaction exists, it is not yet executed, `|approvals| ≥ Threshold` and
`Balance ≥ amount`; on success the balance decreases by the amount and the
transaction is marked executed; each failed precondition yields the
corresponding error with no observable state change. -/
theorem c2_execute_spec (ctx : TR.TRCtx) (executor tx_id : Nat)
    (s : TR.TRState)
    (hinit : s.initialized = true)
    (hauth : executor ∈ ctx.auths)
    (hamt : ∀ t, stGet s.transactions tx_id = some t → 0 ≤ t.amount)
    (hbal : s.balance.getD 0 < i128Lim) :
    ((TR.execute ctx executor tx_id s).1 = .ok () ↔
      executor ∈ s.signers.getD [] ∧
      ∃ t, stGet s.transactions tx_id = some t ∧ t.executed = false ∧
        s.threshold.getD 1 ≤ t.approvals.length ∧
        t.amount ≤ s.balance.getD 0) ∧
    (executor ∉ s.signers.getD [] →
      TR.execute ctx executor tx_id s =
        (.error (.err TR.TRError.NotASigner), s)) ∧
    (executor ∈ s.signers.getD [] → stGet s.transactions tx_id = none →
      TR.execute ctx executor tx_id s =
        (.error (.err TR.TRError.TransactionNotFound), s)) ∧
    (∀ t, executor ∈ s.signers.getD [] →
      stGet s.transactions tx_id = some t → t.executed = true →
      TR.execute ctx executor tx_id s =
        (.error (.err TR.TRError.AlreadyExecuted), s)) ∧
    (∀ t, executor ∈ s.signers.getD [] →
      stGet s.transactions tx_id = some t → t.executed = false →
      t.approvals.length < s.threshold.getD 1 →
      TR.execute ctx executor tx_id s =
        (.error (.err TR.TRError.Unauthorized), s)) ∧
    (∀ t, executor ∈ s.signers.getD [] →
      stGet s.transactions tx_id = some t → t.executed = false →
      s.threshold.getD 1 ≤ t.approvals.length →
      s.balance.getD 0 < t.amount →
      TR.execute ctx executor tx_id s =
        (.error (.err TR.TRError.InsufficientFunds), s)) ∧
    (∀ t, executor ∈ s.signers.getD [] →
      stGet s.transactions tx_id = some t → t.executed = false →
      s.threshold.getD 1 ≤ t.approvals.length →
      t.amount ≤ s.balance.getD 0 →
      TR.execute ctx executor tx_id s =
        (.ok (),
          { s with balance := some (s.balance.getD 0 - t.amount)
                   transactions := stSet s.transactions tx_id
                     { t with executed := true } })) := by
  have hsub : ∀ t : TR.Transaction, stGet s.transactions tx_id = some t →
      t.amount ≤ s.balance.getD 0 →
      chkI128 (s.balance.getD 0 - t.amount) =
        some (s.balance.getD 0 - t.amount) := by
    intro t ht hle
    have h0 : (0 : Int) ≤ t.amount := hamt t ht
    have h1 : -i128Lim ≤ s.balance.getD 0 - t.amount := by
      have : (0 : Int) ≤ s.balance.getD 0 - t.amount := by omega
      have hpos : (0 : Int) < i128Lim := by norm_num [i128Lim]
      omega
    have h2 : s.balance.getD 0 - t.amount < i128Lim := by omega
    simp [chkI128, h1, h2]
  constructor
  · -- the iff
    constructor
    · intro hok
      by_cases hsig : executor ∈ s.signers.getD []
      · rcases ht : stGet s.transactions tx_id with _ | t
        · exfalso
          simp [TR.execute, runTx, TR.execute_body, hinit, hauth, hsig, ht]
            at hok
        · refine ⟨hsig, t, rfl, ?_⟩
          by_cases hex : t.executed
          · exfalso
            simp [TR.execute, runTx, TR.execute_body, hinit, hauth, hsig, ht,
              hex] at hok
          · by_cases hth : t.approvals.length < s.threshold.getD 1
            · exfalso
              simp [TR.execute, runTx, TR.execute_body, hinit, hauth, hsig,
                ht, hex, hth] at hok
            · by_cases hb : s.balance.getD 0 < t.amount
              · exfalso
                simp [TR.execute, runTx, TR.execute_body, hinit, hauth, hsig,
                  ht, hex, hth, hb] at hok
              · exact ⟨by simpa using hex, by omega, by omega⟩
      · exfalso
        simp [TR.execute, runTx, TR.execute_body, hinit, hauth, hsig] at hok
    · rintro ⟨hsig, t, ht, hex, hth, hb⟩
      have hc := hsub t ht hb
      simp [TR.execute, runTx, TR.execute_body, hinit, hauth, hsig, ht, hex,
        not_lt.mpr hth, not_lt.mpr hb, hc]
  refine ⟨?_, ?_, ?_, ?_, ?_, ?_⟩
  · intro hsig
    simp [TR.execute, runTx, TR.execute_body, hinit, hauth, hsig]
  · intro hsig ht
    simp [TR.execute, runTx, TR.execute_body, hinit, hauth, hsig, ht]
  · intro t hsig ht hex
    simp [TR.execute, runTx, TR.execute_body, hinit, hauth, hsig, ht, hex]
  · intro t hsig ht hex hth
    simp [TR.execute, runTx, TR.execute_body, hinit, hauth, hsig, ht, hex,
      hth]
  · intro t hsig ht hex hth hb
    simp [TR.execute, runTx, TR.execute_body, hinit, hauth, hsig, ht, hex,
      not_lt.mpr hth, hb]
  · intro t hsig ht hex hth hb
    have hc := hsub t ht hb
    simp [TR.execute, runTx, TR.execute_body, hinit, hauth, hsig, ht, hex,
      not_lt.mpr hth, not_lt.mpr hb, hc]

/-- Witness for C2: a concrete initialized treasury with one fully approved
transaction; the executor is signer 5, the threshold 2 is met and the
balance 100 covers the amount 40. -/
theorem c2_execute_witness :
    (TR.execute { auths := [5], timestamp := 0 } 5 1
        { initialized := true, admin := some 1, threshold := some 2,
          signers := some [5, 6], balance := some 100, txCounter := some 1,
          transactions := [(1,
            { id := 1, to_addr := 9, amount := 40, memo := "m",
              approvals := [5, 6], executed := false, created_at := 0,
              proposer := 5 })] }).1 = .ok () ↔
      5 ∈ ([5, 6] : List Nat) ∧
      ∃ t, stGet [(1,
          ({ id := 1, to_addr := 9, amount := 40, memo := "m",
             approvals := [5, 6], executed := false, created_at := 0,
             proposer := 5 } : TR.Transaction))] 1 = some t ∧
        t.executed = false ∧
        2 ≤ t.approvals.length ∧ t.amount ≤ 100 :=
  (c2_execute_spec { auths := [5], timestamp := 0 } 5 1
    { initialized := true, admin := some 1, threshold := some 2,
      signers := some [5, 6], balance := some 100, txCounter := some 1,
      transactions := [(1,
        { id := 1, to_addr := 9, amount := 40, memo := "m",
          approvals := [5, 6], executed := false, created_at := 0,
          proposer := 5 })] }
    (by decide) (by decide)
    (by intro t ht; simp [stGet] at ht; simp [← ht])
    (by norm_num [i128Lim])).1

/-- C6.  The claim also asserts that a successful `remove_signer` leaves
`|Signers| ≥ Threshold`.  `initialize` accepts duplicate signers, and
`remove_signer` drops every occurrence of the removed address, so from
`initialize(1, 2, [5,5,5])` a single removal empties the signer list,
leaving `|Signers| = 0 < Threshold = 2` — contradicting the claim (and the
function's own "cannot reduce below threshold" documentation).  With the
distinct signers of the spec scenario the code behaves exactly as claimed:
the first removal succeeds and the second fails with `ThresholdBreach`. -/
theorem c6_remove_signer_dup_breaches :
    ((TR.remove_signer { auths := [1], timestamp := 0 } 1 5
        (TR.init { auths := [1], timestamp := 0 } 1 2 [5, 5, 5]
          TR.trEmpty).2).1 = .ok () ∧
      (TR.remove_signer { auths := [1], timestamp := 0 } 1 5
        (TR.init { auths := [1], timestamp := 0 } 1 2 [5, 5, 5]
          TR.trEmpty).2).2.signers = some [] ∧
      (TR.remove_signer { auths := [1], timestamp := 0 } 1 5
        (TR.init { auths := [1], timestamp := 0 } 1 2 [5, 5, 5]
          TR.trEmpty).2).2.threshold = some 2) ∧
    ((TR.remove_signer { auths := [1], timestamp := 0 } 1 5
        (TR.init { auths := [1], timestamp := 0 } 1 2 [5, 6, 7]
          TR.trEmpty).2).1 = .ok () ∧
      (TR.remove_signer { auths := [1], timestamp := 0 } 1 5
        (TR.init { auths := [1], timestamp := 0 } 1 2 [5, 6, 7]
          TR.trEmpty).2).2.signers = some [6, 7] ∧
      TR.remove_signer { auths := [1], timestamp := 0 } 1 6
        (TR.remove_signer { auths := [1], timestamp := 0 } 1 5
          (TR.init { auths := [1], timestamp := 0 } 1 2 [5, 6, 7]
            TR.trEmpty).2).2 =
        (.error (.err TR.TRError.ThresholdBreach),
          (TR.remove_signer { auths := [1], timestamp := 0 } 1 5
            (TR.init { auths := [1], timestamp := 0 } 1 2 [5, 6, 7]
              TR.trEmpty).2).2)) := by
  decide

/-- C9.  `deposit(from, amount)` with `amount > 0` on an initialized
treasury sets the balance to the old balance plus the amount; when the
`i128` addition would overflow the invocation aborts (terminal error) with
no observable state change — the balance is never silently wrapped. -/
theorem c9_deposit_checked (ctx : TR.TRCtx) (frm : Nat) (amount : Int)
    (s : TR.TRState)
    (hinit : s.initialized = true)
    (hauth : frm ∈ ctx.auths)
    (hamt : 0 < amount) :
    (inI128 (s.balance.getD 0 + amount) →
      TR.deposit ctx frm amount s =
        (.ok (), { s with balance := some (s.balance.getD 0 + amount) })) ∧
    (¬ inI128 (s.balance.getD 0 + amount) →
      TR.deposit ctx frm amount s = (.error .trap, s)) := by
  have hne : ¬ amount ≤ 0 := not_le.mpr hamt
  constructor
  · intro hin
    have hc : chkI128 (s.balance.getD 0 + amount) =
        some (s.balance.getD 0 + amount) := by
      simp [chkI128, hin.1, hin.2]
    simp [TR.deposit, runTx, TR.deposit_body, hinit, hauth, hne, hc]
  · intro hout
    have hno : ¬ (-i128Lim ≤ s.balance.getD 0 + amount ∧
        s.balance.getD 0 + amount < i128Lim) := hout
    have hc : chkI128 (s.balance.getD 0 + amount) = none := by
      simp only [chkI128, if_neg hno]
    simp [TR.deposit, runTx, TR.deposit_body, hinit, hauth, hne, hc]

set_option maxRecDepth 8192 in
/-- Witness for C9: deposit 7 into a freshly initialized treasury. -/
theorem c9_deposit_witness :
    TR.deposit { auths := [1, 2], timestamp := 0 } 2 7
        (TR.init { auths := [1, 2], timestamp := 0 } 1 1 [4]
          TR.trEmpty).2 =
      (.ok (),
        { (TR.init { auths := [1, 2], timestamp := 0 } 1 1 [4]
            TR.trEmpty).2 with
          balance := some (((TR.init { auths := [1, 2], timestamp := 0 } 1 1
            [4] TR.trEmpty).2.balance.getD 0) + 7) }) :=
  (c9_deposit_checked { auths := [1, 2], timestamp := 0 } 2 7
    (TR.init { auths := [1, 2], timestamp := 0 } 1 1 [4] TR.trEmpty).2
    (by decide) (by decide) (by decide)).1 (by decide)


-- ============================================================================
-- Governance contract (`governance/src/lib.rs`)
-- ============================================================================

namespace Gov

/-- Error codes of the Governance module. -/
inductive GovError where
  | NotInitialized
  | AlreadyInitialized
  | Unauthorized
  | ProposalNotFound
  | AlreadyVoted
  | VotingClosed
  | AlreadyExecuted
  | QuorumNotMet
  | ProposalRejected
  | InvalidProposal
  | NotAMember
  | VotingStillActive
  | Overflow
  | StorageError
deriving DecidableEq, Repr

/-- The type of action a proposal requests. -/
inductive ProposalAction where
  | Funding
  | PolicyChange
  | AddMember
  | RemoveMember
  | General
deriving DecidableEq, Repr

/-- The current status of a proposal. -/
inductive ProposalStatus where
  | Active
  | Passed
  | Rejected
  | Executed
  | Expired
deriving DecidableEq, Repr

/-- A governance proposal. -/
structure Proposal where
  id : Nat
  title : String
  description : String
  action : ProposalAction
  proposer : Nat
  votes_for : Nat
  votes_against : Nat
  total_votes : Nat
  status : ProposalStatus
  created_at : Nat
  ends_at : Nat
  amount : Int
  target : Nat
deriving DecidableEq, Repr

/-- Storage of the Governance contract; `receipts` models the persistent
`DataKey::Vote(proposal_id, voter)` records. -/
structure GovState where
  initialized : Bool
  admin : Option Nat
  members : Option (List Nat)
  quorumPercent : Option Nat
  votingPeriod : Option Nat
  proposalCounter : Option Nat
  proposals : List (Nat × Proposal)
  receipts : List ((Nat × Nat) × Bool)
deriving DecidableEq, Repr

/-- The empty (pre-deployment) storage. -/
def govEmpty : GovState :=
  { initialized := false, admin := none, members := none, quorumPercent := none
    votingPeriod := none, proposalCounter := none, proposals := []
    receipts := [] }

/-- Per-invocation host context: authorizing addresses and the current ledger
sequence number. -/
structure GovCtx where
  auths : List Nat
  ledgerSeq : Nat

/-- Body of the `initialize(admin, members, quorum_percent, voting_period)`
entry point. -/
def init_body (ctx : GovCtx) (admin : Nat) (members : List Nat)
    (quorum_percent voting_period : Nat) (s : GovState) :
    Res GovError Unit × GovState :=
  if s.initialized then (.error (.err .AlreadyInitialized), s)
  else if quorum_percent < 1 ∨ quorum_percent > 100 then
    (.error (.err .InvalidProposal), s)
  else if ¬ admin ∈ ctx.auths then (.error .trap, s)
  else
    (.ok (),
      { initialized := true, admin := some admin, members := some members
        quorumPercent := some quorum_percent
        votingPeriod := some voting_period, proposalCounter := some 0
        proposals := s.proposals, receipts := s.receipts })

/-- Governance `initialize` entry point (transactional). -/
def init (ctx : GovCtx) (admin : Nat) (members : List Nat)
    (quorum_percent voting_period : Nat) (s : GovState) :
    Res GovError Unit × GovState :=
  runTx (init_body ctx admin members quorum_percent voting_period) s

/-- Body of `create_proposal(proposer, title, description, action, amount,
target)`.  Note that the incremented `ProposalCounter` is persisted before
`ends_at` is computed, so the `Overflow` error of the `ends_at` checked add
leaves a dirty intermediate state, which only the transactional wrapper
rolls back. -/
def create_proposal_body (ctx : GovCtx) (proposer : Nat)
    (title description : String) (action : ProposalAction) (amount : Int)
    (target : Nat) (s : GovState) : Res GovError Nat × GovState :=
  if ¬ s.initialized then (.error (.err .NotInitialized), s)
  else if ¬ (s.members.getD []).contains proposer then
    (.error (.err .NotAMember), s)
  else if ¬ proposer ∈ ctx.auths then (.error .trap, s)
  else if title = "" then (.error (.err .InvalidProposal), s)
  else if description = "" then (.error (.err .InvalidProposal), s)
  else if amount < 0 then (.error (.err .InvalidProposal), s)
  else
    let badTarget : Bool :=
      decide ((action = .AddMember ∨ action = .RemoveMember) ∧ target = 0)
    if badTarget then (.error (.err .InvalidProposal), s)
    else
      let current := s.proposalCounter.getD 0
      match checkedAdd64 current 1 with
      | none => (.error (.err .Overflow), s)
      | some pid =>
        let s1 := { s with proposalCounter := some pid }
        let vp := s1.votingPeriod.getD 1000
        match checkedAdd32 ctx.ledgerSeq vp with
        | none => (.error (.err .Overflow), s1)
        | some endsAt =>
          let p : Proposal :=
            { id := pid, title := title, description := description
              action := action, proposer := proposer, votes_for := 0
              votes_against := 0, total_votes := 0, status := .Active
              created_at := ctx.ledgerSeq, ends_at := endsAt
              amount := amount, target := target }
          (.ok pid, { s1 with proposals := stSet s1.proposals pid p })

/-- `create_proposal` entry point (transactional). -/
def create_proposal (ctx : GovCtx) (proposer : Nat)
    (title description : String) (action : ProposalAction) (amount : Int)
    (target : Nat) (s : GovState) : Res GovError Nat × GovState :=
  runTx (create_proposal_body ctx proposer title description action amount
    target) s

/-- The updated proposal written by a successful `vote`. -/
def vote_upd (p : Proposal) (vote_for : Bool) : Proposal :=
  { p with
    votes_for := if vote_for then p.votes_for + 1 else p.votes_for
    votes_against := if vote_for then p.votes_against else p.votes_against + 1
    total_votes := p.total_votes + 1 }

/-- Body of `vote(voter, proposal_id, vote_for)`. -/
def vote_body (ctx : GovCtx) (voter proposal_id : Nat) (vote_for : Bool)
    (s : GovState) : Res GovError Unit × GovState :=
  if ¬ s.initialized then (.error (.err .NotInitialized), s)
  else if ¬ (s.members.getD []).contains voter then
    (.error (.err .NotAMember), s)
  else if ¬ voter ∈ ctx.auths then (.error .trap, s)
  else if stHas s.receipts (proposal_id, voter) then
    (.error (.err .AlreadyVoted), s)
  else
    match stGet s.proposals proposal_id with
    | none => (.error (.err .ProposalNotFound), s)
    | some p =>
      if p.status ≠ .Active then (.error (.err .VotingClosed), s)
      else if ctx.ledgerSeq > p.ends_at then (.error (.err .VotingClosed), s)
      else
        match chk32 ((if vote_for then p.votes_for else p.votes_against) + 1),
            chk32 (p.total_votes + 1) with
        | some _, some _ =>
          (.ok (),
            { s with
              receipts := stSet s.receipts (proposal_id, voter) vote_for
              proposals := stSet s.proposals proposal_id (vote_upd p vote_for) })
        | _, _ => (.error .trap, s)

/-- `vote` entry point (transactional). -/
def vote (ctx : GovCtx) (voter proposal_id : Nat) (vote_for : Bool)
    (s : GovState) : Res GovError Unit × GovState :=
  runTx (vote_body ctx voter proposal_id vote_for) s

/-- The status a finalized proposal receives,
`quorum_threshold = (|Members| * QuorumPercent) / 100` (integer division). -/
def finalize_status (memberCount qp total_votes votes_for votes_against :
    Nat) : ProposalStatus :=
  if total_votes < memberCount * qp / 100 then .Expired
  else if votes_for > votes_against then .Passed
  else .Rejected

/-- Body of `finalize(caller, proposal_id)`. -/
def finalize_body (ctx : GovCtx) (caller proposal_id : Nat) (s : GovState) :
    Res GovError ProposalStatus × GovState :=
  if ¬ s.initialized then (.error (.err .NotInitialized), s)
  else if ¬ (s.members.getD []).contains caller then
    (.error (.err .NotAMember), s)
  else if ¬ caller ∈ ctx.auths then (.error .trap, s)
  else
    match stGet s.proposals proposal_id with
    | none => (.error (.err .ProposalNotFound), s)
    | some p =>
      if p.status ≠ .Active then (.error (.err .VotingClosed), s)
      else if ctx.ledgerSeq ≤ p.ends_at then
        (.error (.err .VotingStillActive), s)
      else
        let members := s.members.getD []
        let qp := s.quorumPercent.getD 50
        match chk32 (members.length * qp) with
        | none => (.error .trap, s)
        | some prod =>
          let status := finalize_status members.length qp p.total_votes
            p.votes_for p.votes_against
          let _ := prod
          (.ok status,
            { s with proposals := stSet s.proposals proposal_id { p with status := status } })

/-- `finalize` entry point (transactional). -/
def finalize (ctx : GovCtx) (caller proposal_id : Nat) (s : GovState) :
    Res GovError ProposalStatus × GovState :=
  runTx (finalize_body ctx caller proposal_id) s

/-- Body of `execute_proposal(executor, proposal_id)`; `internal_add_member`
and `internal_remove_member` are inlined (they always return `Ok`). -/
def execute_proposal_body (ctx : GovCtx) (executor proposal_id : Nat)
    (s : GovState) : Res GovError Unit × GovState :=
  if ¬ s.initialized then (.error (.err .NotInitialized), s)
  else if ¬ executor ∈ ctx.auths then (.error .trap, s)
  else
    match stGet s.proposals proposal_id with
    | none => (.error (.err .ProposalNotFound), s)
    | some p =>
      if p.status ≠ .Passed then (.error (.err .ProposalRejected), s)
      else
        match s.admin with
        | none => (.error (.err .NotInitialized), s)
        | some adm =>
          if executor ≠ adm ∧ executor ≠ p.proposer then
            (.error (.err .Unauthorized), s)
          else
            let s1 :=
              match p.action with
              | .AddMember =>
                let members := s.members.getD []
                if members.contains p.target then s
                else { s with members := some (members ++ [p.target]) }
              | .RemoveMember =>
                let members := s.members.getD []
                { s with
                  members := some (members.filter (fun m => m ≠ p.target)) }
              | _ => s
            (.ok (),
              { s1 with proposals := stSet s1.proposals proposal_id { p with status := .Executed } })

/-- `execute_proposal` entry point (transactional). -/
def execute_proposal (ctx : GovCtx) (executor proposal_id : Nat)
    (s : GovState) : Res GovError Unit × GovState :=
  runTx (execute_proposal_body ctx executor proposal_id) s

/-- Body of `transfer_admin(current_admin, new_admin)`. -/
def transfer_admin_body (ctx : GovCtx) (current_admin new_admin : Nat)
    (s : GovState) : Res GovError Unit × GovState :=
  if ¬ s.initialized then (.error (.err .NotInitialized), s)
  else
    match s.admin with
    | none => (.error (.err .NotInitialized), s)
    | some adm =>
      if current_admin ≠ adm then (.error (.err .Unauthorized), s)
      else if ¬ current_admin ∈ ctx.auths then (.error .trap, s)
      else (.ok (), { s with admin := some new_admin })

/-- `transfer_admin` entry point (transactional). -/
def transfer_admin (ctx : GovCtx) (current_admin new_admin : Nat)
    (s : GovState) : Res GovError Unit × GovState :=
  runTx (transfer_admin_body ctx current_admin new_admin) s

/-- Body of `set_quorum(admin, new_quorum)`.  The source performs no range
validation of `new_quorum`. -/
def set_quorum_body (ctx : GovCtx) (admin new_quorum : Nat) (s : GovState) :
    Res GovError Unit × GovState :=
  if ¬ s.initialized then (.error (.err .NotInitialized), s)
  else
    match s.admin with
    | none => (.error (.err .NotInitialized), s)
    | some adm =>
      if admin ≠ adm then (.error (.err .Unauthorized), s)
      else if ¬ admin ∈ ctx.auths then (.error .trap, s)
      else (.ok (), { s with quorumPercent := some new_quorum })

/-- `set_quorum` entry point (transactional). -/
def set_quorum (ctx : GovCtx) (admin new_quorum : Nat) (s : GovState) :
    Res GovError Unit × GovState :=
  runTx (set_quorum_body ctx admin new_quorum) s

/-- The state-mutating governance operations (the reader entry points and
`upgrade` do not touch the modelled storage). -/
inductive GovOp where
  | opInit (admin : Nat) (members : List Nat)
      (quorum_percent voting_period : Nat)
  | opCreate (proposer : Nat) (title description : String)
      (action : ProposalAction) (amount : Int) (target : Nat)
  | opVote (voter proposal_id : Nat) (vote_for : Bool)
  | opFinalize (caller proposal_id : Nat)
  | opExecute (executor proposal_id : Nat)
  | opTransferAdmin (current_admin new_admin : Nat)
  | opSetQuorum (admin new_quorum : Nat)

/-- One observable step: run the entry point, keep the resulting state. -/
def govStep (ctx : GovCtx) (op : GovOp) (s : GovState) : GovState :=
  match op with
  | .opInit a m q v => (init ctx a m q v s).2
  | .opCreate pr t d ac am tg => (create_proposal ctx pr t d ac am tg s).2
  | .opVote v pid d => (vote ctx v pid d s).2
  | .opFinalize c pid => (finalize ctx c pid s).2
  | .opExecute e pid => (execute_proposal ctx e pid s).2
  | .opTransferAdmin a b => (transfer_admin ctx a b s).2
  | .opSetQuorum a q => (set_quorum ctx a q s).2

/-- The state reached by a trace of governance operations from empty
storage. -/
def govReach (tr : List (GovCtx × GovOp)) : GovState :=
  tr.foldl (fun s p => govStep p.1 p.2 s) govEmpty

end Gov


-- ============================================================================
-- Governance invariants (reachable-state induction for the vote ledger)
-- ============================================================================

namespace Gov

/-- Number of vote receipts recorded for a proposal id. -/
def rcCount (rs : List ((Nat × Nat) × Bool)) (pid : Nat) : Nat :=
  (rs.filter (fun e => e.1.1 = pid)).length

/-- The vote-ledger invariant: tallies are consistent
(`votes_for + votes_against = total_votes`), every stored proposal counts
exactly its receipts, receipt keys are unique and point at stored
proposals, stored proposal ids never exceed the counter, and uninitialized
storage holds no proposals or receipts. -/
structure GovInv (s : GovState) : Prop where
  uninit_empty : s.initialized = false → s.proposals = [] ∧ s.receipts = []
  rkeys_nodup : (s.receipts.map Prod.fst).Nodup
  tally : ∀ pid p, stGet s.proposals pid = some p →
    p.votes_for + p.votes_against = p.total_votes
  rcount : ∀ pid p, stGet s.proposals pid = some p →
    p.total_votes = rcCount s.receipts pid
  rdom : ∀ e, e ∈ s.receipts → stHas s.proposals e.1.1 = true
  id_le : ∀ pid p, stGet s.proposals pid = some p →
    pid ≤ s.proposalCounter.getD 0

theorem govInv_empty : GovInv govEmpty := by
  constructor <;> simp [govEmpty, stGet, rcCount]

end Gov

theorem stGet_eq_none_iff {κ α : Type} [DecidableEq κ]
    (l : List (κ × α)) (k : κ) :
    stGet l k = none ↔ k ∉ l.map Prod.fst := by
  induction l with
  | nil => simp [stGet]
  | cons e t ih =>
    by_cases h : e.1 = k
    · simp [stGet, h]
    · simp [stGet, h, ih, Ne.symm h]

theorem rcCount_append_single (rs : List ((Nat × Nat) × Bool))
    (key : Nat × Nat) (b : Bool) (q : Nat) :
    Gov.rcCount (rs ++ [(key, b)]) q =
      Gov.rcCount rs q + if key.1 = q then 1 else 0 := by
  by_cases h : key.1 = q <;> simp [Gov.rcCount, List.filter_append, h]

theorem rcCount_eq_zero (rs : List ((Nat × Nat) × Bool)) (q : Nat)
    (h : ∀ e ∈ rs, e.1.1 ≠ q) : Gov.rcCount rs q = 0 := by
  simp only [Gov.rcCount, List.length_eq_zero]
  rw [List.filter_eq_nil_iff]
  intro e he
  simpa using h e he

theorem count_key_le_one {κ α : Type} [DecidableEq κ]
    (rs : List (κ × α)) (k : κ) (h : (rs.map Prod.fst).Nodup) :
    (rs.filter (fun e => e.1 = k)).length ≤ 1 := by
  induction rs with
  | nil => simp
  | cons e t ih =>
    rw [List.map_cons, List.nodup_cons] at h
    by_cases hek : e.1 = k
    · have hnil : t.filter (fun x => x.1 = k) = [] := by
        rw [List.filter_eq_nil_iff]
        intro x hx
        simp only [decide_eq_true_eq]
        intro hxk
        exact h.1 (by rw [hek, ← hxk]; exact List.mem_map_of_mem Prod.fst hx)
      simp [List.filter_cons, hek, hnil]
    · simpa [List.filter_cons, hek] using ih h.2

namespace Gov

/-- A successful `vote` preserves the vote-ledger invariant. -/
theorem vote_apply_inv (s : GovState) (hs : GovInv s) (pid voter : Nat)
    (dir : Bool) (p : Proposal)
    (hinit : s.initialized = true)
    (hp : stGet s.proposals pid = some p)
    (hnew : stGet s.receipts (pid, voter) = none) :
    GovInv { s with receipts := stSet s.receipts (pid, voter) dir
                    proposals := stSet s.proposals pid (vote_upd p dir) } := by
  have happ : stSet s.receipts (pid, voter) dir =
      s.receipts ++ [((pid, voter), dir)] := stSet_of_get_none _ _ _ hnew
  have hkey : (pid, voter) ∉ s.receipts.map Prod.fst :=
    (stGet_eq_none_iff _ _).mp hnew
  constructor
  · intro hfalse
    rw [hinit] at hfalse
    exact absurd hfalse (by simp)
  · simp only [happ, List.map_append, List.map_cons, List.map_nil]
    rw [List.nodup_append]
    exact ⟨hs.rkeys_nodup, List.nodup_singleton _,
      by intro a ha hb; simp at hb; subst hb; exact hkey ha⟩
  · intro q pq hq
    by_cases hqp : q = pid
    · subst hqp
      rw [stGet_stSet_self] at hq
      cases hq
      have := hs.tally q p hp
      by_cases hd : dir <;> simp [vote_upd, hd] <;> omega
    · rw [stGet_stSet_ne _ _ _ _ hqp] at hq
      exact hs.tally q pq hq
  · intro q pq hq
    simp only [happ]
    rw [rcCount_append_single]
    by_cases hqp : q = pid
    · subst hqp
      rw [stGet_stSet_self] at hq
      cases hq
      have := hs.rcount q p hp
      simp [vote_upd, this]
    · rw [stGet_stSet_ne _ _ _ _ hqp] at hq
      have := hs.rcount q pq hq
      simp [this, Ne.symm hqp]
  · intro e he
    simp only [happ, List.mem_append, List.mem_singleton] at he
    rcases he with he | he
    · rw [stHas_stSet]
      simp [hs.rdom e he]
    · subst he
      rw [stHas_stSet]
      simp
  · intro q pq hq
    by_cases hqp : q = pid
    · subst hqp
      exact hs.id_le q p hp
    · rw [stGet_stSet_ne _ _ _ _ hqp] at hq
      exact hs.id_le q pq hq

end Gov


theorem runTx_snd_cases {σ ε α : Type} (body : σ → Res ε α × σ) (s : σ) :
    (runTx body s).2 = s ∨ (runTx body s).2 = (body s).2 := by
  unfold runTx
  rcases hb : body s with ⟨r, s2⟩
  cases r <;> simp [hb]

namespace Gov

/-- A fresh proposal with zero tallies preserves the invariant. -/
theorem create_apply_inv (s : GovState) (hs : GovInv s)
    (hinit : s.initialized = true) (p : Proposal)
    (hvf : p.votes_for = 0) (hva : p.votes_against = 0)
    (htv : p.total_votes = 0) :
    GovInv { s with proposalCounter := some (s.proposalCounter.getD 0 + 1)
                    proposals := stSet s.proposals
                      (s.proposalCounter.getD 0 + 1) p } := by
  have hfresh : ∀ e ∈ s.receipts, e.1.1 ≠ s.proposalCounter.getD 0 + 1 := by
    intro e he
    have hhas := hs.rdom e he
    rcases Option.isSome_iff_exists.mp (by simpa [stHas] using hhas)
      with ⟨q, hq⟩
    have := hs.id_le e.1.1 q hq
    omega
  constructor
  · intro hfalse
    rw [hinit] at hfalse
    exact absurd hfalse (by simp)
  · exact hs.rkeys_nodup
  · intro q pq hq
    by_cases hqp : q = s.proposalCounter.getD 0 + 1
    · subst hqp
      rw [stGet_stSet_self] at hq
      cases hq
      rw [hvf, hva, htv]
    · rw [stGet_stSet_ne _ _ _ _ hqp] at hq
      exact hs.tally q pq hq
  · intro q pq hq
    by_cases hqp : q = s.proposalCounter.getD 0 + 1
    · subst hqp
      rw [stGet_stSet_self] at hq
      cases hq
      rw [htv, (rcCount_eq_zero s.receipts _ hfresh)]
    · rw [stGet_stSet_ne _ _ _ _ hqp] at hq
      exact hs.rcount q pq hq
  · intro e he
    rw [stHas_stSet]
    simp [hs.rdom e he]
  · intro q pq hq
    by_cases hqp : q = s.proposalCounter.getD 0 + 1
    · subst hqp; simp
    · rw [stGet_stSet_ne _ _ _ _ hqp] at hq
      have := hs.id_le q pq hq
      simp only [Option.getD_some]
      omega

/-- Bumping the proposal counter upward preserves the invariant (this is the
dirty intermediate state of `create_proposal` whose `ends_at` add
overflows). -/
theorem counter_bump_inv (s : GovState) (hs : GovInv s)
    (hinit : s.initialized = true) (n : Nat)
    (hn : s.proposalCounter.getD 0 ≤ n) :
    GovInv { s with proposalCounter := some n } := by
  constructor
  · intro hfalse
    rw [hinit] at hfalse
    exact absurd hfalse (by simp)
  · exact hs.rkeys_nodup
  · exact hs.tally
  · exact hs.rcount
  · exact hs.rdom
  · intro q pq hq
    have := hs.id_le q pq hq
    simp only [Option.getD_some]
    omega

/-- Overwriting a stored proposal with one that has the same tallies (a
status change by `finalize` or `execute_proposal`), possibly together with a
members-list update, preserves the invariant. -/
theorem set_status_members_inv (s : GovState) (hs : GovInv s) (pid : Nat)
    (p p2 : Proposal) (m2 : Option (List Nat))
    (hinit : s.initialized = true)
    (hp : stGet s.proposals pid = some p)
    (hvf : p2.votes_for = p.votes_for)
    (hva : p2.votes_against = p.votes_against)
    (htv : p2.total_votes = p.total_votes) :
    GovInv { s with members := m2
                    proposals := stSet s.proposals pid p2 } := by
  constructor
  · intro hfalse
    rw [hinit] at hfalse
    exact absurd hfalse (by simp)
  · exact hs.rkeys_nodup
  · intro q pq hq
    by_cases hqp : q = pid
    · subst hqp
      rw [stGet_stSet_self] at hq
      cases hq
      rw [hvf, hva, htv]
      exact hs.tally q p hp
    · rw [stGet_stSet_ne _ _ _ _ hqp] at hq
      exact hs.tally q pq hq
  · intro q pq hq
    by_cases hqp : q = pid
    · subst hqp
      rw [stGet_stSet_self] at hq
      cases hq
      rw [htv]
      exact hs.rcount q p hp
    · rw [stGet_stSet_ne _ _ _ _ hqp] at hq
      exact hs.rcount q pq hq
  · intro e he
    rw [stHas_stSet]
    simp [hs.rdom e he]
  · intro q pq hq
    by_cases hqp : q = pid
    · subst hqp
      exact hs.id_le q p hp
    · rw [stGet_stSet_ne _ _ _ _ hqp] at hq
      exact hs.id_le q pq hq

/-- The state written by a successful `initialize` satisfies the
invariant. -/
theorem init_apply_inv (s : GovState) (hs : GovInv s)
    (hninit : s.initialized = false) (a : Nat) (m : List Nat) (q v : Nat) :
    GovInv { initialized := true, admin := some a, members := some m
             quorumPercent := some q, votingPeriod := some v
             proposalCounter := some 0, proposals := s.proposals
             receipts := s.receipts } := by
  obtain ⟨hp, hr⟩ := hs.uninit_empty hninit
  constructor <;> simp [hp, hr, stGet, rcCount, stHas]

/-- Changing only the admin or the quorum percentage preserves the
invariant. -/
theorem config_change_inv (s : GovState) (hs : GovInv s)
    (hinit : s.initialized = true) (a2 q2 : Option Nat) :
    GovInv { s with admin := a2, quorumPercent := q2 } := by
  constructor
  · intro hfalse
    rw [hinit] at hfalse
    exact absurd hfalse (by simp)
  · exact hs.rkeys_nodup
  · exact hs.tally
  · exact hs.rcount
  · exact hs.rdom
  · exact hs.id_le

theorem init_body_inv (ctx : GovCtx) (a : Nat) (m : List Nat) (q v : Nat)
    (s : GovState) (hs : GovInv s) :
    GovInv (init_body ctx a m q v s).2 := by
  by_cases h1 : s.initialized = true
  case pos => simp [init_body, h1]; exact hs
  have h1f : s.initialized = false := by simpa using h1
  by_cases h2 : q = 0 ∨ 100 < q
  case pos => simp [init_body, h1f, h2]; exact hs
  by_cases h3 : a ∈ ctx.auths
  case neg => simp [init_body, h1f, h2, h3]; exact hs
  case pos =>
    have hred : (init_body ctx a m q v s).2 =
        { initialized := true, admin := some a, members := some m
          quorumPercent := some q, votingPeriod := some v
          proposalCounter := some 0, proposals := s.proposals
          receipts := s.receipts } := by
      simp [init_body, h1f, h2, h3]
    rw [hred]
    exact init_apply_inv s hs h1f a m q v

theorem create_body_inv (ctx : GovCtx) (pr : Nat) (t d : String)
    (ac : ProposalAction) (am : Int) (tg : Nat) (s : GovState)
    (hs : GovInv s) :
    GovInv (create_proposal_body ctx pr t d ac am tg s).2 := by
  by_cases h1 : s.initialized = true
  case neg => simp [create_proposal_body, h1]; exact hs
  by_cases h2 : pr ∈ s.members.getD []
  case neg => simp [create_proposal_body, h1, h2]; exact hs
  by_cases h3 : pr ∈ ctx.auths
  case neg => simp [create_proposal_body, h1, h2, h3]; exact hs
  by_cases h4 : t = ""
  case pos => simp [create_proposal_body, h1, h2, h3, h4]; exact hs
  by_cases h5 : d = ""
  case pos => simp [create_proposal_body, h1, h2, h3, h4, h5]; exact hs
  by_cases h6 : am < 0
  case pos => simp [create_proposal_body, h1, h2, h3, h4, h5, h6]; exact hs
  by_cases h7 : (ac = ProposalAction.AddMember ∨
      ac = ProposalAction.RemoveMember) ∧ tg = 0
  case pos =>
    simp [create_proposal_body, h1, h2, h3, h4, h5, h6, h7]; exact hs
  by_cases h8 : s.proposalCounter.getD 0 + 1 < u64Lim
  case neg =>
    simp [create_proposal_body, h1, h2, h3, h4, h5, h6, h7, checkedAdd64, h8]
    exact hs
  by_cases h9 : ctx.ledgerSeq + s.votingPeriod.getD 1000 < u32Lim
  case neg =>
    have hred : (create_proposal_body ctx pr t d ac am tg s).2 =
        { s with proposalCounter := some (s.proposalCounter.getD 0 + 1) } := by
      simp [create_proposal_body, h1, h2, h3, h4, h5, h6, h7, checkedAdd64,
        h8, checkedAdd32, h9]
    rw [hred]
    exact counter_bump_inv s hs h1 _ (by omega)
  case pos =>
    have hred : (create_proposal_body ctx pr t d ac am tg s).2 =
        { s with proposalCounter := some (s.proposalCounter.getD 0 + 1)
                 proposals := stSet s.proposals (s.proposalCounter.getD 0 + 1)
                   { id := s.proposalCounter.getD 0 + 1, title := t
                     description := d, action := ac, proposer := pr
                     votes_for := 0, votes_against := 0, total_votes := 0
                     status := .Active, created_at := ctx.ledgerSeq
                     ends_at := ctx.ledgerSeq + s.votingPeriod.getD 1000
                     amount := am, target := tg } } := by
      simp [create_proposal_body, h1, h2, h3, h4, h5, h6, h7, checkedAdd64,
        h8, checkedAdd32, h9]
    rw [hred]
    exact create_apply_inv s hs h1 _ rfl rfl rfl

theorem vote_body_inv (ctx : GovCtx) (voter pid : Nat) (dir : Bool)
    (s : GovState) (hs : GovInv s) :
    GovInv (vote_body ctx voter pid dir s).2 := by
  by_cases h1 : s.initialized = true
  case neg => simp [vote_body, h1]; exact hs
  by_cases h2 : voter ∈ s.members.getD []
  case neg => simp [vote_body, h1, h2]; exact hs
  by_cases h3 : voter ∈ ctx.auths
  case neg => simp [vote_body, h1, h2, h3]; exact hs
  by_cases h4 : stHas s.receipts (pid, voter) = true
  case pos => simp [vote_body, h1, h2, h3, h4]; exact hs
  have hnone : stGet s.receipts (pid, voter) = none := by
    rcases hg : stGet s.receipts (pid, voter) with _ | b
    · rfl
    · exact absurd (by simp [stHas, hg]) h4
  rcases hp : stGet s.proposals pid with _ | p
  · simp [vote_body, h1, h2, h3, h4, hp]; exact hs
  by_cases h5 : p.status = ProposalStatus.Active
  case neg => simp [vote_body, h1, h2, h3, h4, hp, h5]; exact hs
  by_cases h6 : p.ends_at < ctx.ledgerSeq
  case pos => simp [vote_body, h1, h2, h3, h4, hp, h5, h6]; exact hs
  by_cases h7 : (if dir then p.votes_for else p.votes_against) + 1 < u32Lim
  case neg =>
    simp [vote_body, h1, h2, h3, h4, hp, h5, h6, chk32, h7]
    exact hs
  by_cases h8 : p.total_votes + 1 < u32Lim
  case neg =>
    simp [vote_body, h1, h2, h3, h4, hp, h5, h6, chk32, h7, h8]
    exact hs
  case pos =>
    have hred : (vote_body ctx voter pid dir s).2 =
        { s with receipts := stSet s.receipts (pid, voter) dir
                 proposals := stSet s.proposals pid (vote_upd p dir) } := by
      simp [vote_body, h1, h2, h3, h4, hp, h5, h6, chk32, h7, h8]
    rw [hred]
    exact vote_apply_inv s hs pid voter dir p h1 hp hnone

theorem finalize_body_inv (ctx : GovCtx) (caller pid : Nat) (s : GovState)
    (hs : GovInv s) :
    GovInv (finalize_body ctx caller pid s).2 := by
  by_cases h1 : s.initialized = true
  case neg => simp [finalize_body, h1]; exact hs
  by_cases h2 : caller ∈ s.members.getD []
  case neg => simp [finalize_body, h1, h2]; exact hs
  by_cases h3 : caller ∈ ctx.auths
  case neg => simp [finalize_body, h1, h2, h3]; exact hs
  rcases hp : stGet s.proposals pid with _ | p
  · simp [finalize_body, h1, h2, h3, hp]; exact hs
  by_cases h4 : p.status = ProposalStatus.Active
  case neg => simp [finalize_body, h1, h2, h3, hp, h4]; exact hs
  by_cases h5 : ctx.ledgerSeq ≤ p.ends_at
  case pos => simp [finalize_body, h1, h2, h3, hp, h4, h5]; exact hs
  by_cases h6 : (s.members.getD []).length * s.quorumPercent.getD 50 < u32Lim
  case neg =>
    simp [finalize_body, h1, h2, h3, hp, h4, h5, chk32, h6]
    exact hs
  case pos =>
    have hred : (finalize_body ctx caller pid s).2 =
        { s with proposals := stSet s.proposals pid { p with
            status := finalize_status (s.members.getD []).length
              (s.quorumPercent.getD 50) p.total_votes p.votes_for
              p.votes_against } } := by
      simp [finalize_body, h1, h2, h3, hp, h4, h5, chk32, h6]
    rw [hred]
    exact set_status_members_inv
      { s with proposals := s.proposals } hs pid p _ s.members h1 hp
      rfl rfl rfl

theorem execute_body_inv (ctx : GovCtx) (executor pid : Nat) (s : GovState)
    (hs : GovInv s) :
    GovInv (execute_proposal_body ctx executor pid s).2 := by
  by_cases h1 : s.initialized = true
  case neg => simp [execute_proposal_body, h1]; exact hs
  by_cases h2 : executor ∈ ctx.auths
  case neg => simp [execute_proposal_body, h1, h2]; exact hs
  rcases hp : stGet s.proposals pid with _ | p
  · simp [execute_proposal_body, h1, h2, hp]; exact hs
  by_cases h3 : p.status = ProposalStatus.Passed
  case neg => simp [execute_proposal_body, h1, h2, hp, h3]; exact hs
  rcases ha : s.admin with _ | adm
  · simp [execute_proposal_body, h1, h2, hp, h3, ha]; exact hs
  by_cases h4 : executor ≠ adm ∧ executor ≠ p.proposer
  case pos => simp [execute_proposal_body, h1, h2, hp, h3, ha, h4]; exact hs
  rcases hac : p.action with _ | _ | _ | _ | _
  · have hred : (execute_proposal_body ctx executor pid s).2 =
        { s with members := s.members
                 proposals := stSet s.proposals pid { p with status := .Executed } } := by
      simp [execute_proposal_body, h1, h2, hp, h3, ha, h4, hac]
    rw [hred]
    exact set_status_members_inv s hs pid p _ s.members h1 hp rfl rfl rfl
  · have hred : (execute_proposal_body ctx executor pid s).2 =
        { s with members := s.members
                 proposals := stSet s.proposals pid { p with status := .Executed } } := by
      simp [execute_proposal_body, h1, h2, hp, h3, ha, h4, hac]
    rw [hred]
    exact set_status_members_inv s hs pid p _ s.members h1 hp rfl rfl rfl
  · by_cases h5 : p.target ∈ s.members.getD []
    · have hred : (execute_proposal_body ctx executor pid s).2 =
          { s with members := s.members
                   proposals := stSet s.proposals pid { p with status := .Executed } } := by
        simp [execute_proposal_body, h1, h2, hp, h3, ha, h4, hac, h5]
      rw [hred]
      exact set_status_members_inv s hs pid p _ s.members h1 hp rfl rfl rfl
    · have hred : (execute_proposal_body ctx executor pid s).2 =
          { s with members := some (s.members.getD [] ++ [p.target])
                   proposals := stSet s.proposals pid { p with status := .Executed } } := by
        simp [execute_proposal_body, h1, h2, hp, h3, ha, h4, hac, h5]
      rw [hred]
      exact set_status_members_inv s hs pid p _
        (some (s.members.getD [] ++ [p.target])) h1 hp rfl rfl rfl
  · have hred : (execute_proposal_body ctx executor pid s).2 =
        { s with members := some ((s.members.getD []).filter (fun m => m ≠ p.target))
                 proposals := stSet s.proposals pid { p with status := .Executed } } := by
      simp [execute_proposal_body, h1, h2, hp, h3, ha, h4, hac]
    rw [hred]
    exact set_status_members_inv s hs pid p _
      (some ((s.members.getD []).filter (fun m => m ≠ p.target))) h1 hp
      rfl rfl rfl
  · have hred : (execute_proposal_body ctx executor pid s).2 =
        { s with members := s.members
                 proposals := stSet s.proposals pid { p with status := .Executed } } := by
      simp [execute_proposal_body, h1, h2, hp, h3, ha, h4, hac]
    rw [hred]
    exact set_status_members_inv s hs pid p _ s.members h1 hp rfl rfl rfl

theorem transfer_admin_body_inv (ctx : GovCtx) (a b : Nat) (s : GovState)
    (hs : GovInv s) :
    GovInv (transfer_admin_body ctx a b s).2 := by
  by_cases h1 : s.initialized = true
  case neg => simp [transfer_admin_body, h1]; exact hs
  rcases ha : s.admin with _ | adm
  · simp [transfer_admin_body, h1, ha]; exact hs
  by_cases h2 : a = adm
  case neg => simp [transfer_admin_body, h1, ha, h2]; exact hs
  subst h2
  by_cases h3 : a ∈ ctx.auths
  case neg => simp [transfer_admin_body, h1, ha, h3]; exact hs
  case pos =>
    have hred : (transfer_admin_body ctx a b s).2 =
        { s with admin := some b } := by
      simp [transfer_admin_body, h1, ha, h3]
    rw [hred]
    exact config_change_inv s hs h1 (some b) s.quorumPercent

theorem set_quorum_body_inv (ctx : GovCtx) (a q : Nat) (s : GovState)
    (hs : GovInv s) :
    GovInv (set_quorum_body ctx a q s).2 := by
  by_cases h1 : s.initialized = true
  case neg => simp [set_quorum_body, h1]; exact hs
  rcases ha : s.admin with _ | adm
  · simp [set_quorum_body, h1, ha]; exact hs
  by_cases h2 : a = adm
  case neg => simp [set_quorum_body, h1, ha, h2]; exact hs
  subst h2
  by_cases h3 : a ∈ ctx.auths
  case neg => simp [set_quorum_body, h1, ha, h3]; exact hs
  case pos =>
    have hred : (set_quorum_body ctx a q s).2 =
        { s with quorumPercent := some q } := by
      simp [set_quorum_body, h1, ha, h3]
    rw [hred]
    exact config_change_inv s hs h1 s.admin (some q)

/-- Every observable governance step preserves the vote-ledger invariant. -/
theorem govStep_preserves (ctx : GovCtx) (op : GovOp) (s : GovState)
    (hs : GovInv s) : GovInv (govStep ctx op s) := by
  cases op with
  | opInit a m q v =>
    rcases runTx_snd_cases (init_body ctx a m q v) s with h | h
    · show GovInv (runTx (init_body ctx a m q v) s).2
      rw [h]; exact hs
    · show GovInv (runTx (init_body ctx a m q v) s).2
      rw [h]; exact init_body_inv ctx a m q v s hs
  | opCreate pr t d ac am tg =>
    rcases runTx_snd_cases (create_proposal_body ctx pr t d ac am tg) s
      with h | h
    · show GovInv (runTx (create_proposal_body ctx pr t d ac am tg) s).2
      rw [h]; exact hs
    · show GovInv (runTx (create_proposal_body ctx pr t d ac am tg) s).2
      rw [h]; exact create_body_inv ctx pr t d ac am tg s hs
  | opVote v pid dir =>
    rcases runTx_snd_cases (vote_body ctx v pid dir) s with h | h
    · show GovInv (runTx (vote_body ctx v pid dir) s).2
      rw [h]; exact hs
    · show GovInv (runTx (vote_body ctx v pid dir) s).2
      rw [h]; exact vote_body_inv ctx v pid dir s hs
  | opFinalize c pid =>
    rcases runTx_snd_cases (finalize_body ctx c pid) s with h | h
    · show GovInv (runTx (finalize_body ctx c pid) s).2
      rw [h]; exact hs
    · show GovInv (runTx (finalize_body ctx c pid) s).2
      rw [h]; exact finalize_body_inv ctx c pid s hs
  | opExecute e pid =>
    rcases runTx_snd_cases (execute_proposal_body ctx e pid) s with h | h
    · show GovInv (runTx (execute_proposal_body ctx e pid) s).2
      rw [h]; exact hs
    · show GovInv (runTx (execute_proposal_body ctx e pid) s).2
      rw [h]; exact execute_body_inv ctx e pid s hs
  | opTransferAdmin a b =>
    rcases runTx_snd_cases (transfer_admin_body ctx a b) s with h | h
    · show GovInv (runTx (transfer_admin_body ctx a b) s).2
      rw [h]; exact hs
    · show GovInv (runTx (transfer_admin_body ctx a b) s).2
      rw [h]; exact transfer_admin_body_inv ctx a b s hs
  | opSetQuorum a q =>
    rcases runTx_snd_cases (set_quorum_body ctx a q) s with h | h
    · show GovInv (runTx (set_quorum_body ctx a q) s).2
      rw [h]; exact hs
    · show GovInv (runTx (set_quorum_body ctx a q) s).2
      rw [h]; exact set_quorum_body_inv ctx a q s hs

theorem govFold_inv (tr : List (GovCtx × GovOp)) (s : GovState)
    (hs : GovInv s) :
    GovInv (tr.foldl (fun s p => govStep p.1 p.2 s) s) := by
  induction tr generalizing s with
  | nil => exact hs
  | cons hd tl ih => exact ih _ (govStep_preserves hd.1 hd.2 s hs)

/-- The invariant holds at every reachable governance state. -/
theorem govReach_inv (tr : List (GovCtx × GovOp)) : GovInv (govReach tr) :=
  govFold_inv tr govEmpty govInv_empty

end Gov


/-- C7.  At every reachable governance state, every stored proposal
satisfies `votes_for + votes_against = total_votes` and its `total_votes`
equals the number of stored `VoteReceipt`s for its id (a receipt exists iff
it contributed to the tallies); each `(proposal_id, voter)` pair has at most
one receipt, and every receipt points at a stored proposal.  Moreover a
second vote by the same voter on the same proposal fails with
`AlreadyVoted` and changes no state. -/
theorem c7_vote_ledger_invariants :
    (∀ tr : List (Gov.GovCtx × Gov.GovOp),
      (∀ pid p, stGet (Gov.govReach tr).proposals pid = some p →
        p.votes_for + p.votes_against = p.total_votes ∧
        p.total_votes = Gov.rcCount (Gov.govReach tr).receipts pid) ∧
      (∀ k : Nat × Nat,
        ((Gov.govReach tr).receipts.filter (fun e => e.1 = k)).length ≤ 1) ∧
      (∀ e, e ∈ (Gov.govReach tr).receipts →
        stHas (Gov.govReach tr).proposals e.1.1 = true)) ∧
    (∀ (ctx : Gov.GovCtx) (voter pid : Nat) (dir : Bool) (s : Gov.GovState),
      s.initialized = true → voter ∈ s.members.getD [] →
      voter ∈ ctx.auths → stHas s.receipts (pid, voter) = true →
      Gov.vote ctx voter pid dir s =
        (.error (.err Gov.GovError.AlreadyVoted), s)) := by
  constructor
  · intro tr
    have hI := Gov.govReach_inv tr
    refine ⟨?_, ?_, ?_⟩
    · intro pid p hp
      exact ⟨hI.tally pid p hp, hI.rcount pid p hp⟩
    · intro k
      exact count_key_le_one _ k hI.rkeys_nodup
    · exact hI.rdom
  · intro ctx voter pid dir s hinit hmem hauth hvoted
    simp [Gov.vote, runTx, Gov.vote_body, hinit, hmem, hauth, hvoted]

/-- Witness for C7's hypothesised clause: after initialize, create and a
first vote, a second vote by member 2 on proposal 1 fails with
`AlreadyVoted` and leaves the state unchanged. -/
theorem c7_vote_witness :
    Gov.vote { auths := [2], ledgerSeq := 1 } 2 1 false
        (Gov.vote { auths := [2], ledgerSeq := 0 } 2 1 true
          (Gov.create_proposal { auths := [2], ledgerSeq := 0 } 2 "t" "d"
            .General 0 2
            (Gov.init { auths := [1], ledgerSeq := 0 } 1 [2, 3] 50 10
              Gov.govEmpty).2).2).2 =
      (.error (.err Gov.GovError.AlreadyVoted),
        (Gov.vote { auths := [2], ledgerSeq := 0 } 2 1 true
          (Gov.create_proposal { auths := [2], ledgerSeq := 0 } 2 "t" "d"
            .General 0 2
            (Gov.init { auths := [1], ledgerSeq := 0 } 1 [2, 3] 50 10
              Gov.govEmpty).2).2).2) :=
  c7_vote_ledger_invariants.2 { auths := [2], ledgerSeq := 1 } 2 1 false _
    (by decide) (by decide) (by decide) (by decide)

-- ============================================================================
-- Claims about Governance (functional correctness and error handling)
-- ============================================================================

/-- C4.  `finalize(caller, proposal_id)` called by a member on an `Active`
proposal with `current_ledger > ends_at` stores and returns the status given
by the quorum rule: `Expired` when
`total_votes < (|Members| * QuorumPercent) / 100` (integer division =
floor), `Passed` when quorum is met and `votes_for > votes_against`, and
`Rejected` otherwise. -/
theorem c4_finalize_rule (ctx : Gov.GovCtx) (caller pid : Nat)
    (s : Gov.GovState) (p : Gov.Proposal)
    (hinit : s.initialized = true)
    (hmem : caller ∈ s.members.getD [])
    (hauth : caller ∈ ctx.auths)
    (hp : stGet s.proposals pid = some p)
    (hact : p.status = .Active)
    (hlg : p.ends_at < ctx.ledgerSeq)
    (hmul : (s.members.getD []).length * s.quorumPercent.getD 50 < u32Lim) :
    Gov.finalize ctx caller pid s =
      (.ok (Gov.finalize_status (s.members.getD []).length
          (s.quorumPercent.getD 50) p.total_votes p.votes_for
          p.votes_against),
        { s with proposals := stSet s.proposals pid ({ p with
            status := Gov.finalize_status (s.members.getD []).length
              (s.quorumPercent.getD 50) p.total_votes p.votes_for
              p.votes_against }) }) ∧
    (p.total_votes <
        (s.members.getD []).length * (s.quorumPercent.getD 50) / 100 →
      Gov.finalize_status (s.members.getD []).length (s.quorumPercent.getD 50)
        p.total_votes p.votes_for p.votes_against = .Expired) ∧
    ((s.members.getD []).length * (s.quorumPercent.getD 50) / 100 ≤
        p.total_votes → p.votes_against < p.votes_for →
      Gov.finalize_status (s.members.getD []).length (s.quorumPercent.getD 50)
        p.total_votes p.votes_for p.votes_against = .Passed) ∧
    ((s.members.getD []).length * (s.quorumPercent.getD 50) / 100 ≤
        p.total_votes → p.votes_for ≤ p.votes_against →
      Gov.finalize_status (s.members.getD []).length (s.quorumPercent.getD 50)
        p.total_votes p.votes_for p.votes_against = .Rejected) := by
  refine ⟨?_, ?_, ?_, ?_⟩
  · have hch : chk32 ((s.members.getD []).length * s.quorumPercent.getD 50) =
        some ((s.members.getD []).length * s.quorumPercent.getD 50) := by
      simp [chk32, hmul]
    simp [Gov.finalize, runTx, Gov.finalize_body, hinit, hmem, hauth, hp,
      hact, not_le.mpr hlg, hch]
  · intro h
    simp [Gov.finalize_status, h]
  · intro h1 h2
    simp [Gov.finalize_status, not_lt.mpr h1, h2]
  · intro h1 h2
    simp [Gov.finalize_status, not_lt.mpr h1, not_lt.mpr h2]

/-- Witness for C4: the quorum-expiry scenario of the spec — four members,
quorum 50, voting period 10; one vote is cast, the ledger advances past
`ends_at`, and `finalize` yields `Expired` since `1 < (4 * 50) / 100 = 2`. -/
theorem c4_finalize_witness :
    (Gov.finalize { auths := [2], ledgerSeq := 11 } 2 1
        (Gov.vote { auths := [2], ledgerSeq := 0 } 2 1 true
          (Gov.create_proposal { auths := [2], ledgerSeq := 0 } 2 "t" "d"
            .General 0 2
            (Gov.init { auths := [1], ledgerSeq := 0 } 1 [2, 3, 4, 5] 50 10
              Gov.govEmpty).2).2).2).1 =
      .ok Gov.ProposalStatus.Expired := by
  have h := (c4_finalize_rule { auths := [2], ledgerSeq := 11 } 2 1
    (Gov.vote { auths := [2], ledgerSeq := 0 } 2 1 true
      (Gov.create_proposal { auths := [2], ledgerSeq := 0 } 2 "t" "d"
        .General 0 2
        (Gov.init { auths := [1], ledgerSeq := 0 } 1 [2, 3, 4, 5] 50 10
          Gov.govEmpty).2).2).2
    { id := 1, title := "t", description := "d", action := .General,
      proposer := 2, votes_for := 1, votes_against := 0, total_votes := 1,
      status := .Active, created_at := 0, ends_at := 10, amount := 0,
      target := 2 }
    (by decide) (by decide) (by decide) (by decide) (by decide) (by decide)
    (by decide)).1
  rw [Prod.ext_iff] at h
  rw [h.1]
  decide

/-- C5.  Whenever `create_proposal` returns an error, the observable state
is unchanged — in particular `ProposalCounter` does not advance.  The second
part exhibits the `Overflow` failure of the `ends_at` computation at
`ledger = 2^32 - 1`: the raw body has already persisted the incremented
counter when the error occurs, and the transactional wrapper is what rolls
it back. -/
theorem c5_create_proposal_transactional :
    (∀ (ctx : Gov.GovCtx) (pr : Nat) (t d : String)
        (ac : Gov.ProposalAction) (am : Int) (tg : Nat) (s : Gov.GovState)
        (e : Halt Gov.GovError),
      (Gov.create_proposal ctx pr t d ac am tg s).1 = .error e →
      (Gov.create_proposal ctx pr t d ac am tg s).2 = s) ∧
    ((Gov.create_proposal_body { auths := [2], ledgerSeq := u32Lim - 1 } 2
        "t" "d" .General 0 2
        (Gov.init { auths := [1], ledgerSeq := 0 } 1 [2] 50 10
          Gov.govEmpty).2).1 = .error (.err Gov.GovError.Overflow) ∧
      (Gov.create_proposal_body { auths := [2], ledgerSeq := u32Lim - 1 } 2
        "t" "d" .General 0 2
        (Gov.init { auths := [1], ledgerSeq := 0 } 1 [2] 50 10
          Gov.govEmpty).2).2.proposalCounter = some 1 ∧
      Gov.create_proposal { auths := [2], ledgerSeq := u32Lim - 1 } 2
        "t" "d" .General 0 2
        (Gov.init { auths := [1], ledgerSeq := 0 } 1 [2] 50 10
          Gov.govEmpty).2 =
        (.error (.err Gov.GovError.Overflow),
          (Gov.init { auths := [1], ledgerSeq := 0 } 1 [2] 50 10
            Gov.govEmpty).2) ∧
      (Gov.init { auths := [1], ledgerSeq := 0 } 1 [2] 50 10
        Gov.govEmpty).2.proposalCounter = some 0) := by
  constructor
  · intro ctx pr t d ac am tg s e h
    exact runTx_error_eq (Gov.create_proposal_body ctx pr t d ac am tg) s e h
  · decide

/-- Witness for C5: a failing call (uninitialized storage) leaves the state
unchanged. -/
theorem c5_create_proposal_witness :
    (Gov.create_proposal { auths := [], ledgerSeq := 0 } 1 "t" "d" .General 0
        1 Gov.govEmpty).2 = Gov.govEmpty :=
  c5_create_proposal_transactional.1 { auths := [], ledgerSeq := 0 } 1 "t"
    "d" .General 0 1 Gov.govEmpty (.err Gov.GovError.NotInitialized)
    (by decide)

/-- C8.  The claim requires `set_quorum(admin, new)` to accept only
`new ∈ [1, 100]`.  The admin-equality and authorization gates do exist, but
the source stores `new_quorum` with no range validation: with the stored
admin 1, `set_quorum(1, 0)` and `set_quorum(1, 101)` both succeed and store
the out-of-range value.  (A non-admin caller is rejected with
`Unauthorized`, and a call the admin did not authorize traps.) -/
theorem c8_set_quorum_unvalidated :
    ((Gov.set_quorum { auths := [1], ledgerSeq := 0 } 1 0
        (Gov.init { auths := [1], ledgerSeq := 0 } 1 [2] 50 10
          Gov.govEmpty).2).1 = .ok () ∧
      (Gov.set_quorum { auths := [1], ledgerSeq := 0 } 1 0
        (Gov.init { auths := [1], ledgerSeq := 0 } 1 [2] 50 10
          Gov.govEmpty).2).2.quorumPercent = some 0) ∧
    ((Gov.set_quorum { auths := [1], ledgerSeq := 0 } 1 101
        (Gov.init { auths := [1], ledgerSeq := 0 } 1 [2] 50 10
          Gov.govEmpty).2).1 = .ok () ∧
      (Gov.set_quorum { auths := [1], ledgerSeq := 0 } 1 101
        (Gov.init { auths := [1], ledgerSeq := 0 } 1 [2] 50 10
          Gov.govEmpty).2).2.quorumPercent = some 101) ∧
    Gov.set_quorum { auths := [2], ledgerSeq := 0 } 2 60
        (Gov.init { auths := [1], ledgerSeq := 0 } 1 [2] 50 10
          Gov.govEmpty).2 =
      (.error (.err Gov.GovError.Unauthorized),
        (Gov.init { auths := [1], ledgerSeq := 0 } 1 [2] 50 10
          Gov.govEmpty).2) ∧
    (Gov.set_quorum { auths := [], ledgerSeq := 0 } 1 60
        (Gov.init { auths := [1], ledgerSeq := 0 } 1 [2] 50 10
          Gov.govEmpty).2).1 = .error .trap := by
  decide

/-- Witness for C10 at a concrete state: initialize with owner 1, then
self-transfer. -/
theorem c10_witness :
    (AC.transfer_ownership { auths := [1], timestamp := 5 } 1 1
        (AC.init { auths := [1], timestamp := 0 } 1 AC.acInit).2).1 = .ok () ∧
    (AC.transfer_ownership { auths := [1], timestamp := 5 } 1 1
        (AC.init { auths := [1], timestamp := 0 } 1 AC.acInit).2).2.owner
      = some 1 ∧
    stGet (AC.transfer_ownership { auths := [1], timestamp := 5 } 1 1
        (AC.init { auths := [1], timestamp := 0 } 1 AC.acInit).2).2.roles 1 =
      some { address := 1, role := AC.Role.Admin, assigned_at := 5
             assigned_by := 1 } ∧
    stGet (AC.transfer_ownership { auths := [1], timestamp := 5 } 1 1
        (AC.init { auths := [1], timestamp := 0 } 1 AC.acInit).2).2.roleCounts
        AC.Role.Admin.toU32 =
      some ((stGet (AC.init { auths := [1], timestamp := 0 } 1
        AC.acInit).2.roleCounts AC.Role.Admin.toU32).getD 0 + 1) ∧
    (stGet (AC.transfer_ownership { auths := [1], timestamp := 5 } 1 1
        (AC.init { auths := [1], timestamp := 0 } 1 AC.acInit).2).2.roles
        1).map AC.RoleAssignment.role ≠ some AC.Role.Owner :=
  c10_self_transfer_demotes_owner { auths := [1], timestamp := 5 } 1
    (AC.init { auths := [1], timestamp := 0 } 1 AC.acInit).2
    (by decide) (by decide) (by decide) (by decide)

end StellarGuard
